import Mathlib

/-!
Shallow embedding of the core of the `deeplTranslator` repository:
the hand-written SQL `VALUES`-tuple parser of
`translate_checklist_items.py` and the batching / retry translation
pipeline of `activity_translator.py`.  Machine strings are modelled as
`List Char` (with `String` wrappers mirroring the Python signatures);
Python `None` fields become `Option`.
-/

/-- Python `str.strip()` whitespace set (ASCII part, the one exercised here). -/
def isPySpace (c : Char) : Bool :=
  c = ' ' || c = '\t' || c = '\n' || c = '\r' || c = '\x0b' || c = '\x0c'

/-- Python `str.strip()` on a character list. -/
def pyStrip (s : List Char) : List Char :=
  ((s.dropWhile isPySpace).reverse.dropWhile isPySpace).reverse

/-- Python `str.upper()` on a character list (ASCII; this is all the
`NULL` comparison in the source can be sensitive to). -/
def pyUpper (s : List Char) : List Char :=
  s.map Char.toUpper

/-- The field finalisation performed by `parse_values_tuples` at `,` and `)`:
`v = token.strip()`; `None if v.upper() == "NULL" else v`. -/
def finalizeField (token : List Char) : Option (List Char) :=
  let v := pyStrip token
  if pyUpper v = ['N', 'U', 'L', 'L'] then none else some v

/-- The character-scanning loop of `parse_values_tuples`
(translate_checklist_items.py, lines 49-101), state passed explicitly:
`in_tuple`, `in_str`, `current` (fields of the open tuple), `token`
(pending raw token) and `tuples` (completed tuples). -/
def parseLoop : List Char → Bool → Bool → List (Option (List Char)) → List Char →
    List (List (Option (List Char))) → List (List (Option (List Char)))
  | [], _, _, _, _, tuples => tuples
  | ch :: rest, in_tuple, in_str, current, token, tuples =>
    if !in_tuple then
      if ch = '(' then
        parseLoop rest true false [] [] tuples
      else
        parseLoop rest false in_str current token tuples
    else if in_str then
      if ch = '\'' then
        match rest with
        | '\'' :: rest2 => parseLoop rest2 true true current (token ++ ['\'']) tuples
        | r => parseLoop r true false current token tuples
      else
        parseLoop rest true true current (token ++ [ch]) tuples
    else if ch = '\'' then
      parseLoop rest true true current token tuples
    else if ch = ',' then
      parseLoop rest true in_str (current ++ [finalizeField token]) [] tuples
    else if ch = ')' then
      parseLoop rest false in_str current [] (tuples ++ [current ++ [finalizeField token]])
    else
      parseLoop rest true in_str current (token ++ [ch]) tuples

/-- `parse_values_tuples` on a character list. -/
def parse_values_tuplesL (sql_fragment : List Char) : List (List (Option (List Char))) :=
  parseLoop sql_fragment false false [] [] []

/-- `parse_values_tuples(sql_fragment)` (translate_checklist_items.py,
lines 30-101): parses SQL `VALUES` tuples into lists of nullable fields. -/
def parse_values_tuples (sql_fragment : String) : List (List (Option String)) :=
  (parse_values_tuplesL sql_fragment.data).map (fun t => t.map (Option.map String.mk))

/-- `sql_escape` on a character list: `value.replace(miniquote, doubled)`. -/
def sqlEscapeL : List Char → List Char
  | [] => []
  | c :: rest => if c = '\'' then '\'' :: '\'' :: sqlEscapeL rest else c :: sqlEscapeL rest

/-- `sql_escape(value)` (translate_checklist_items.py, lines 25-27). -/
def sql_escape (value : String) : String :=
  String.mk (sqlEscapeL value.data)

/-- Word characters of the regex `\w` class (ASCII part), used by the
`\b` boundaries of the pattern `\bVALUES\b`. -/
def isWordChar (c : Char) : Bool :=
  c.isAlphanum || c = '_'

/-- Whether the case-insensitive pattern `\bVALUES\b` matches `cs` at
position `i`: six characters spelling `VALUES` up to ASCII case, with a
word boundary on each side.  Matches have fixed length six and all six
characters are word characters, so two matches can never overlap; the
set of `re.finditer` matches is exactly the set of matching positions. -/
def valuesAt (cs : List Char) (i : Nat) : Bool :=
  pyUpper ((cs.drop i).take 6) = ['V', 'A', 'L', 'U', 'E', 'S']
    && (decide (i = 0) || !isWordChar (cs.getD (i - 1) ' '))
    && (decide (cs.length ≤ i + 6) || !isWordChar (cs.getD (i + 6) ' '))

/-- `sql.find(miniSemicolon, start)` with the `-1` case resolved to
`len(sql)` as in the source: the end of the section starting at `start`. -/
def sectionEnd (cs : List Char) (start : Nat) : Nat :=
  match (cs.drop start).findIdx? (· = ';') with
  | some j => start + j
  | none => cs.length

/-- `extract_values_sections(sql)` (translate_checklist_items.py, lines
104-116): for each match of `\bVALUES\b`, the text from the end of the
match to the next semicolon (or end of text). -/
def extract_values_sections (sql : String) : List String :=
  ((List.range sql.data.length).filter (valuesAt sql.data)).map (fun i =>
    String.mk ((sql.data.drop (i + 6)).take (sectionEnd sql.data (i + 6) - (i + 6))))

/-- The row collection of `main` (translate_checklist_items.py, lines
153-157): all tuples of all VALUES sections, in order. -/
def mainRows (sql : String) : List (List (Option String)) :=
  ((extract_values_sections sql).map parse_values_tuples).flatten

/-- The zero-row check of `main` (translate_checklist_items.py, lines
159-160): an empty row list raises `ValueError`, modelled as `Except.error`
carrying the message. -/
def mainRowsOutcome (sql : String) : Except String (List (List (Option String))) :=
  if (mainRows sql).isEmpty then
    Except.error "No se detectaron tuplas VALUES en el archivo SQL."
  else
    Except.ok (mainRows sql)

/-- Digit-sequence part of Python `int(str)`: decimal digits with single
underscores allowed between digits. -/
def pyDigitsGo : List Char → Nat → Option Nat
  | [], acc => some acc
  | c :: rest, acc =>
    if c.isDigit then pyDigitsGo rest (acc * 10 + (c.toNat - 48))
    else if c = '_' then
      match rest with
      | d :: _ => if d.isDigit then pyDigitsGo rest acc else none
      | [] => none
    else none

/-- Python `int(str)` (ASCII): strip whitespace, optional single sign,
then a digit sequence; anything else raises, modelled as `none`. -/
def pyToInt (s : String) : Option Int :=
  match pyStrip s.data with
  | [] => none
  | c :: rest =>
    if c = '+' then
      match rest with
      | d :: _ => if d.isDigit then (pyDigitsGo rest 0).map Int.ofNat else none
      | [] => none
    else if c = '-' then
      match rest with
      | d :: _ => if d.isDigit then (pyDigitsGo rest 0).map (fun n => -(Int.ofNat n)) else none
      | [] => none
    else if c.isDigit then (pyDigitsGo (c :: rest) 0).map Int.ofNat
    else none

/-- `as_int(value)` (translate_checklist_items.py, lines 128-134). -/
def as_int (value : Option String) : Option Int :=
  match value with
  | none => none
  | some s => pyToInt s

namespace ChecklistItems

/-- `normalize(s)` (translate_checklist_items.py, lines 137-141); in a
namespace because Mathlib already has a `normalize`. -/
def normalize (s : Option String) : Option String :=
  match s with
  | none => none
  | some s =>
    let s2 := String.mk (pyStrip s.data)
    if s2 = "" then none else some s2

end ChecklistItems

/-- The named projection of one row built by the loop of `main`
(translate_checklist_items.py, lines 173-190). -/
structure ProjectedItem where
  checklist_item_id : Int
  label : String
  description : String
  placeholder : Option String
  deriving DecidableEq, Repr

/-- The per-row validation and projection of `main`
(translate_checklist_items.py, lines 173-190), with the source's fixed
indices `IDX_LABEL = 1`, `IDX_PLACEHOLDER = 4`, `IDX_DESCRIPTION = 5`,
`IDX_TEMPLATE_ITEM_ID = 11`; each `continue` becomes `none`. -/
def projectRow (row : List (Option String)) : Option ProjectedItem :=
  if row.length ≤ 11 then none
  else
    let checklist_item_id := as_int (row.getD 11 none)
    let base_label_es := ChecklistItems.normalize (row.getD 1 none)
    let base_desc_es := ChecklistItems.normalize (row.getD 5 none)
    let base_ph_es := ChecklistItems.normalize (row.getD 4 none)
    match checklist_item_id with
    | none => none
    | some cid =>
      match base_label_es with
      | none => none
      | some label =>
        some { checklist_item_id := cid
               label := label
               description := base_desc_es.getD label
               placeholder := base_ph_es }

/-- The shape of a DeepL `/v2/translate` response as `translate_batch`
consumes it: HTTP success flag and the list of translated texts
(`payload["translations"][k]["text"]`). -/
structure DeepLResponse where
  ok : Bool
  translations : List String
  deriving DecidableEq, Repr

/-- `translate_batch(texts, target_lang)` (activity_translator.py, lines
91-107), with the network call abstracted as the response it returned:
a non-ok response or a count mismatch raises, modelled as `Except.error`. -/
def translate_batch (texts : List String) (resp : DeepLResponse) : Except String (List String) :=
  if !resp.ok then
    Except.error "DeepL error"
  else if resp.translations.length ≠ texts.length then
    Except.error "Mismatch entre textos enviados y traducidos"
  else
    Except.ok resp.translations

/-- The loop of `with_retries` (activity_translator.py, lines 110-122),
from attempt number `attempt`.  The wrapped impure `fn` is modelled as a
function from the attempt number to that attempt's outcome.  Returns the
final outcome (`none` only when the loop body never ran, i.e.
`max_attempts < attempt`, where the source would raise `None`), the list
of attempt numbers at which `fn` was called, and the list of sleeps
(`base_sleep * attempt`) performed between attempts. -/
def retryGo {ε α : Type} (fn : Nat → Except ε α) (max_attempts : Nat) (base_sleep : ℚ)
    (attempt : Nat) : Option (Except ε α) × List Nat × List ℚ :=
  if _h : max_attempts < attempt then (none, [], [])
  else
    match fn attempt with
    | Except.ok a => (some (Except.ok a), [attempt], [])
    | Except.error e =>
      if attempt = max_attempts then (some (Except.error e), [attempt], [])
      else
        match retryGo fn max_attempts base_sleep (attempt + 1) with
        | (r, calls, sleeps) => (r, attempt :: calls, (base_sleep * attempt : ℚ) :: sleeps)
termination_by max_attempts + 1 - attempt

/-- `with_retries(fn, max_attempts=4, base_sleep=2.0)`
(activity_translator.py, lines 110-122): attempts start at 1. -/
def with_retries {ε α : Type} (fn : Nat → Except ε α) (max_attempts : Nat := 4)
    (base_sleep : ℚ := 2) : Option (Except ε α) × List Nat × List ℚ :=
  retryGo fn max_attempts base_sleep 1

/-- The batching loop of `translate_objects_file` (activity_translator.py,
lines 242-243): `for i in range(0, total, BATCH_SIZE): texts[i:i+BATCH_SIZE]`
with `BATCH_SIZE = 50`. -/
def batchesFrom (texts : List String) (i : Nat) : List (List String) :=
  if _h : i < texts.length then
    ((texts.drop i).take 50) :: batchesFrom texts (i + 50)
  else []
termination_by texts.length - i

/-- The batches dispatched for one language by `translate_objects_file`. -/
def dispatchBatches (texts : List String) : List (List String) :=
  batchesFrom texts 0

/-- Fuel-bounded variant of `parseLoop`: spends one unit of fuel per
iteration of the source's `while i < n` loop and answers `none` when the
fuel runs out with input left.  Used to bound the parser's running time:
every iteration consumes at least one input character, so `length` fuel
always suffices. -/
def parseLoopF : Nat → List Char → Bool → Bool → List (Option (List Char)) → List Char →
    List (List (Option (List Char))) → Option (List (List (Option (List Char))))
  | _, [], _, _, _, _, tuples => some tuples
  | 0, _ :: _, _, _, _, _, _ => none
  | fuel + 1, ch :: rest, in_tuple, in_str, current, token, tuples =>
    if !in_tuple then
      if ch = '(' then
        parseLoopF fuel rest true false [] [] tuples
      else
        parseLoopF fuel rest false in_str current token tuples
    else if in_str then
      if ch = '\'' then
        match rest with
        | '\'' :: rest2 => parseLoopF fuel rest2 true true current (token ++ ['\'']) tuples
        | r => parseLoopF fuel r true false current token tuples
      else
        parseLoopF fuel rest true true current (token ++ [ch]) tuples
    else if ch = '\'' then
      parseLoopF fuel rest true true current token tuples
    else if ch = ',' then
      parseLoopF fuel rest true in_str (current ++ [finalizeField token]) [] tuples
    else if ch = ')' then
      parseLoopF fuel rest false in_str current [] (tuples ++ [current ++ [finalizeField token]])
    else
      parseLoopF fuel rest true in_str current (token ++ [ch]) tuples

/-- Concrete wrapped function used to exercise `with_retries`: fails on
attempts 1 and 2, succeeds on attempt 3. -/
def fnW : Nat → Except String Nat :=
  fun k => if k ≤ 2 then Except.error "boom" else Except.ok 42

/-- A concrete twelve-field row exercising the projection: `label` at
index 1, empty `description` at index 5, `template_item_id` at index 11. -/
def row0 : List (Option String) :=
  [some "text", some "Label", none, none, none, none, none, none, none, none, none, some "7"]

/-- The projection of `row0`. -/
def rec0 : ProjectedItem :=
  { checklist_item_id := 7, label := "Label", description := "Label", placeholder := none }

/-! ## Step lemmas for the scanner -/

theorem parseLoop_nil (it istr : Bool) (cur : List (Option (List Char))) (tok : List Char)
    (tups : List (List (Option (List Char)))) : parseLoop [] it istr cur tok tups = tups := rfl

theorem parseLoop_cons (ch : Char) (rest : List Char) (it istr : Bool)
    (cur : List (Option (List Char))) (tok : List Char)
    (tups : List (List (Option (List Char)))) :
    parseLoop (ch :: rest) it istr cur tok tups =
      if !it then
        if ch = '(' then
          parseLoop rest true false [] [] tups
        else
          parseLoop rest false istr cur tok tups
      else if istr then
        if ch = '\'' then
          match rest with
          | '\'' :: rest2 => parseLoop rest2 true true cur (tok ++ ['\'']) tups
          | r => parseLoop r true false cur tok tups
        else
          parseLoop rest true true cur (tok ++ [ch]) tups
      else if ch = '\'' then
        parseLoop rest true true cur tok tups
      else if ch = ',' then
        parseLoop rest true istr (cur ++ [finalizeField tok]) [] tups
      else if ch = ')' then
        parseLoop rest false istr cur [] (tups ++ [cur ++ [finalizeField tok]])
      else
        parseLoop rest true istr cur (tok ++ [ch]) tups := by
  rw [parseLoop.eq_def]

theorem stepOutside_open (r : List Char) (istr : Bool) (cur : List (Option (List Char)))
    (tok : List Char) (tups : List (List (Option (List Char)))) :
    parseLoop ('(' :: r) false istr cur tok tups = parseLoop r true false [] [] tups := by
  rw [parseLoop_cons]; rfl

theorem stepOutside_other (c : Char) (hc : c ≠ '(') (r : List Char) (istr : Bool)
    (cur : List (Option (List Char))) (tok : List Char)
    (tups : List (List (Option (List Char)))) :
    parseLoop (c :: r) false istr cur tok tups = parseLoop r false istr cur tok tups := by
  rw [parseLoop_cons]; simp [hc]

theorem stepTuple_quote (r : List Char) (cur : List (Option (List Char))) (tok : List Char)
    (tups : List (List (Option (List Char)))) :
    parseLoop ('\'' :: r) true false cur tok tups = parseLoop r true true cur tok tups := by
  rw [parseLoop_cons]; rfl

theorem stepTuple_comma (r : List Char) (cur : List (Option (List Char))) (tok : List Char)
    (tups : List (List (Option (List Char)))) :
    parseLoop (',' :: r) true false cur tok tups
      = parseLoop r true false (cur ++ [finalizeField tok]) [] tups := by
  rw [parseLoop_cons]; rfl

theorem stepTuple_close (r : List Char) (cur : List (Option (List Char))) (tok : List Char)
    (tups : List (List (Option (List Char)))) :
    parseLoop (')' :: r) true false cur tok tups
      = parseLoop r false false cur [] (tups ++ [cur ++ [finalizeField tok]]) := by
  rw [parseLoop_cons]; rfl

theorem stepTuple_other (c : Char) (hq : c ≠ '\'') (hcm : c ≠ ',') (hcl : c ≠ ')')
    (r : List Char) (cur : List (Option (List Char))) (tok : List Char)
    (tups : List (List (Option (List Char)))) :
    parseLoop (c :: r) true false cur tok tups = parseLoop r true false cur (tok ++ [c]) tups := by
  rw [parseLoop_cons]; simp [hq, hcm, hcl]

theorem stepStr_other (c : Char) (hq : c ≠ '\'') (r : List Char)
    (cur : List (Option (List Char))) (tok : List Char)
    (tups : List (List (Option (List Char)))) :
    parseLoop (c :: r) true true cur tok tups = parseLoop r true true cur (tok ++ [c]) tups := by
  rw [parseLoop_cons]; simp [hq]

theorem stepStr_quote_pair (r : List Char) (cur : List (Option (List Char))) (tok : List Char)
    (tups : List (List (Option (List Char)))) :
    parseLoop ('\'' :: '\'' :: r) true true cur tok tups
      = parseLoop r true true cur (tok ++ ['\'']) tups := by
  rw [parseLoop_cons]; rfl

theorem stepStr_quote_close_cons (c : Char) (hq : c ≠ '\'') (r : List Char)
    (cur : List (Option (List Char))) (tok : List Char)
    (tups : List (List (Option (List Char)))) :
    parseLoop ('\'' :: c :: r) true true cur tok tups = parseLoop (c :: r) true false cur tok tups := by
  rw [parseLoop_cons]
  simp only [Bool.not_true, Bool.false_eq_true, if_false, if_pos rfl, ite_true, ite_false]
  split
  · simp_all
  · rfl

theorem stepStr_quote_close_nil (cur : List (Option (List Char))) (tok : List Char)
    (tups : List (List (Option (List Char)))) :
    parseLoop ['\''] true true cur tok tups = tups := by
  rw [parseLoop_cons]; rfl

/-! ## Segment lemmas: how the scanner crosses whole substrings -/

theorem parseLoop_str_append (content : List Char) (h : ∀ c ∈ content, c ≠ '\'') :
    ∀ (rest : List Char) (cur : List (Option (List Char))) (tok : List Char)
      (tups : List (List (Option (List Char)))),
    parseLoop (content ++ rest) true true cur tok tups
      = parseLoop rest true true cur (tok ++ content) tups := by
  induction content with
  | nil => intro rest cur tok tups; simp
  | cons c cl ih =>
    intro rest cur tok tups
    have hc : c ≠ '\'' := h c (by simp)
    rw [List.cons_append, stepStr_other c hc, ih (fun x hx => h x (by simp [hx]))]
    simp

theorem parseLoop_tuple_append (content : List Char)
    (h : ∀ c ∈ content, c ≠ '\'' ∧ c ≠ ',' ∧ c ≠ ')') :
    ∀ (rest : List Char) (cur : List (Option (List Char))) (tok : List Char)
      (tups : List (List (Option (List Char)))),
    parseLoop (content ++ rest) true false cur tok tups
      = parseLoop rest true false cur (tok ++ content) tups := by
  induction content with
  | nil => intro rest cur tok tups; simp
  | cons c cl ih =>
    intro rest cur tok tups
    obtain ⟨h1, h2, h3⟩ := h c (by simp)
    rw [List.cons_append, stepTuple_other c h1 h2 h3, ih (fun x hx => h x (by simp [hx]))]
    simp

theorem parseLoop_escape_append (s : List Char) :
    ∀ (rest : List Char) (cur : List (Option (List Char))) (tok : List Char)
      (tups : List (List (Option (List Char)))),
    parseLoop (sqlEscapeL s ++ rest) true true cur tok tups
      = parseLoop rest true true cur (tok ++ s) tups := by
  induction s with
  | nil => intro rest cur tok tups; simp [sqlEscapeL]
  | cons c cl ih =>
    intro rest cur tok tups
    by_cases hc : c = '\''
    · subst hc
      rw [show sqlEscapeL ('\'' :: cl) = '\'' :: '\'' :: sqlEscapeL cl from by
            simp [sqlEscapeL],
          List.cons_append, List.cons_append, stepStr_quote_pair, ih]
      simp
    · rw [show sqlEscapeL (c :: cl) = c :: sqlEscapeL cl from by simp [sqlEscapeL, hc],
          List.cons_append, stepStr_other c hc, ih]
      simp

/-- Parsing one quoted field: `('` ++ content ++ `')` with no quote in
the content yields exactly one tuple holding exactly one field, the
finalisation of the content. -/
theorem parse_quoted_single (content : List Char) (h : ∀ c ∈ content, c ≠ '\'') :
    parse_values_tuplesL ('(' :: '\'' :: (content ++ ['\'', ')'])) = [[finalizeField content]] := by
  unfold parse_values_tuplesL
  rw [stepOutside_open, stepTuple_quote, parseLoop_str_append content h,
      show ('\'' :: [')'] : List Char) = '\'' :: ')' :: [] from rfl,
      stepStr_quote_close_cons ')' (by decide), stepTuple_close, parseLoop_nil]
  simp

/-- Parsing one unquoted field: `(` ++ content ++ `)` with no quote,
comma or closing parenthesis in the content yields exactly one tuple
holding exactly one field, the finalisation of the content. -/
theorem parse_unquoted_single (content : List Char)
    (h : ∀ c ∈ content, c ≠ '\'' ∧ c ≠ ',' ∧ c ≠ ')') :
    parse_values_tuplesL ('(' :: (content ++ [')'])) = [[finalizeField content]] := by
  unfold parse_values_tuplesL
  rw [stepOutside_open, parseLoop_tuple_append content h, stepTuple_close, parseLoop_nil]
  simp

/-- Parsing one quoted field whose content is the SQL-escape of an
arbitrary string `s` yields exactly one tuple holding the finalisation
of `s` itself (the `''` pairs are folded back to single quotes). -/
theorem parse_escaped_single (s : List Char) :
    parse_values_tuplesL ('(' :: '\'' :: (sqlEscapeL s ++ ['\'', ')'])) = [[finalizeField s]] := by
  unfold parse_values_tuplesL
  rw [stepOutside_open, stepTuple_quote, parseLoop_escape_append s,
      show ('\'' :: [')'] : List Char) = '\'' :: ')' :: [] from rfl,
      stepStr_quote_close_cons ')' (by decide), stepTuple_close, parseLoop_nil]
  simp

theorem parseLoop_append_open :
    ∀ (n : Nat) (cs : List Char), cs.length ≤ n →
    ∀ (it istr : Bool) (cur : List (Option (List Char))) (tok : List Char)
      (tups : List (List (Option (List Char)))),
    parseLoop (cs ++ ['(']) it istr cur tok tups = parseLoop cs it istr cur tok tups := by
  intro n
  induction n with
  | zero =>
    intro cs hlen it istr cur tok tups
    have hnil : cs = [] := List.eq_nil_of_length_eq_zero (Nat.le_zero.mp hlen)
    subst hnil
    rw [List.nil_append, parseLoop_nil]
    cases it with
    | false => rw [stepOutside_open, parseLoop_nil]
    | true =>
      cases istr with
      | true => rw [stepStr_other '(' (by decide), parseLoop_nil]
      | false =>
        rw [stepTuple_other '(' (by decide) (by decide) (by decide), parseLoop_nil]
  | succ n ih =>
    intro cs hlen it istr cur tok tups
    cases cs with
    | nil =>
      rw [List.nil_append, parseLoop_nil]
      cases it with
      | false => rw [stepOutside_open, parseLoop_nil]
      | true =>
        cases istr with
        | true => rw [stepStr_other '(' (by decide), parseLoop_nil]
        | false =>
          rw [stepTuple_other '(' (by decide) (by decide) (by decide), parseLoop_nil]
    | cons c rest =>
      have hrest : rest.length ≤ n := by
        have := hlen
        simp only [List.length_cons] at this
        omega
      cases it with
      | false =>
        by_cases hc : c = '('
        · subst hc
          rw [List.cons_append, stepOutside_open, stepOutside_open, ih rest hrest]
        · rw [List.cons_append, stepOutside_other c hc, stepOutside_other c hc, ih rest hrest]
      | true =>
        cases istr with
        | false =>
          by_cases h1 : c = '\''
          · subst h1
            rw [List.cons_append, stepTuple_quote, stepTuple_quote, ih rest hrest]
          · by_cases h2 : c = ','
            · subst h2
              rw [List.cons_append, stepTuple_comma, stepTuple_comma, ih rest hrest]
            · by_cases h3 : c = ')'
              · subst h3
                rw [List.cons_append, stepTuple_close, stepTuple_close, ih rest hrest]
              · rw [List.cons_append, stepTuple_other c h1 h2 h3, stepTuple_other c h1 h2 h3,
                    ih rest hrest]
        | true =>
          by_cases h1 : c = '\''
          · subst h1
            cases rest with
            | nil =>
              rw [List.cons_append, List.nil_append, stepStr_quote_close_nil,
                  show ('\'' :: ['('] : List Char) = '\'' :: '(' :: [] from rfl,
                  stepStr_quote_close_cons '(' (by decide),
                  stepTuple_other '(' (by decide) (by decide) (by decide), parseLoop_nil]
            | cons c2 rest2 =>
              by_cases h2 : c2 = '\''
              · subst h2
                have hrest2 : rest2.length ≤ n := by
                  simp only [List.length_cons] at hrest
                  omega
                rw [List.cons_append, List.cons_append, stepStr_quote_pair, stepStr_quote_pair,
                    ih rest2 hrest2]
              · rw [List.cons_append, List.cons_append, stepStr_quote_close_cons c2 h2,
                    stepStr_quote_close_cons c2 h2, ← List.cons_append, ih (c2 :: rest2) hrest]
          · rw [List.cons_append, stepStr_other c h1, stepStr_other c h1, ih rest hrest]

theorem batchesFrom_flatten (texts : List String) :
    ∀ (n i : Nat), texts.length - i ≤ n → (batchesFrom texts i).flatten = texts.drop i := by
  intro n
  induction n with
  | zero =>
    intro i h
    have hle : texts.length ≤ i := by omega
    rw [batchesFrom, dif_neg (by omega)]
    rw [List.drop_eq_nil_of_le hle]
    rfl
  | succ n ih =>
    intro i h
    by_cases hi : i < texts.length
    · rw [batchesFrom, dif_pos hi, List.flatten_cons, ih (i + 50) (by omega)]
      have : texts.drop (i + 50) = (texts.drop i).drop 50 := by
        rw [List.drop_drop, Nat.add_comm]
      rw [this]
      exact List.take_append_drop 50 (texts.drop i)
    · rw [batchesFrom, dif_neg hi, List.drop_eq_nil_of_le (by omega)]
      rfl

theorem batchesFrom_sizes (texts : List String) :
    ∀ (n i : Nat), texts.length - i ≤ n → ∀ b ∈ batchesFrom texts i, b.length ≤ 50 := by
  intro n
  induction n with
  | zero =>
    intro i h b hb
    rw [batchesFrom, dif_neg (by omega)] at hb
    cases hb
  | succ n ih =>
    intro i h b hb
    by_cases hi : i < texts.length
    · rw [batchesFrom, dif_pos hi] at hb
      rcases List.mem_cons.mp hb with hb | hb
      · subst hb
        exact List.length_take_le 50 _
      · exact ih (i + 50) (by omega) b hb
    · rw [batchesFrom, dif_neg hi] at hb
      cases hb

theorem parseLoopF_cons (fuel : Nat) (ch : Char) (rest : List Char) (it istr : Bool)
    (cur : List (Option (List Char))) (tok : List Char)
    (tups : List (List (Option (List Char)))) :
    parseLoopF (fuel + 1) (ch :: rest) it istr cur tok tups =
      if !it then
        if ch = '(' then
          parseLoopF fuel rest true false [] [] tups
        else
          parseLoopF fuel rest false istr cur tok tups
      else if istr then
        if ch = '\'' then
          match rest with
          | '\'' :: rest2 => parseLoopF fuel rest2 true true cur (tok ++ ['\'']) tups
          | r => parseLoopF fuel r true false cur tok tups
        else
          parseLoopF fuel rest true true cur (tok ++ [ch]) tups
      else if ch = '\'' then
        parseLoopF fuel rest true true cur tok tups
      else if ch = ',' then
        parseLoopF fuel rest true istr (cur ++ [finalizeField tok]) [] tups
      else if ch = ')' then
        parseLoopF fuel rest false istr cur [] (tups ++ [cur ++ [finalizeField tok]])
      else
        parseLoopF fuel rest true istr cur (tok ++ [ch]) tups := by
  rw [parseLoopF.eq_def]

theorem parseLoopF_complete :
    ∀ (fuel : Nat) (cs : List Char), cs.length ≤ fuel →
    ∀ (it istr : Bool) (cur : List (Option (List Char))) (tok : List Char)
      (tups : List (List (Option (List Char)))),
    parseLoopF fuel cs it istr cur tok tups = some (parseLoop cs it istr cur tok tups) := by
  intro fuel
  induction fuel with
  | zero =>
    intro cs h it istr cur tok tups
    have hnil : cs = [] := List.eq_nil_of_length_eq_zero (Nat.le_zero.mp h)
    subst hnil
    rfl
  | succ n ih =>
    intro cs h it istr cur tok tups
    cases cs with
    | nil => rfl
    | cons c rest =>
      have hrest : rest.length ≤ n := by
        simp only [List.length_cons] at h
        omega
      rw [parseLoopF_cons, parseLoop_cons]
      rcases rest with _ | ⟨c2, rest2⟩
      · split_ifs <;> first
          | rfl
          | exact ih [] (by simp) _ _ _ _ _
      · have hrest2 : rest2.length ≤ n := by
          simp only [List.length_cons] at hrest
          omega
        split_ifs <;> first
          | exact ih (c2 :: rest2) hrest _ _ _ _ _
          | (by_cases hc2 : c2 = '\''
             · subst hc2
               exact ih rest2 hrest2 _ _ _ _ _
             · (show (match c2 :: rest2 with
                  | '\'' :: rest2 => parseLoopF n rest2 true true cur (tok ++ ['\'']) tups
                  | r => parseLoopF n r true false cur tok tups) = _
                split
                · simp_all
                · exact ih (c2 :: rest2) hrest _ _ _ _ _))

/-- C5: with its default arguments (`max_attempts = 4`,
`base_sleep = 2.0`), `with_retries` calls the wrapped function at most 4
times; a first success at attempt `k` is returned with no further
attempts (the calls are exactly attempts `1..k`); four failures
propagate the final failure; the sleep after attempt `k` is
`base_sleep * k`. -/
theorem with_retries_policy {ε α : Type} (fn : Nat → Except ε α) :
    (with_retries fn).2.1.length ≤ 4 ∧
    (with_retries fn).2.2 = (with_retries fn).2.1.dropLast.map (fun k => 2 * (k : ℚ)) ∧
    (∀ (k : Nat) (a : α), 1 ≤ k → k ≤ 4 → fn k = Except.ok a →
      (∀ j, 1 ≤ j → j < k → ∃ e, fn j = Except.error e) →
      (with_retries fn).1 = some (Except.ok a) ∧ (with_retries fn).2.1 = List.range' 1 k) ∧
    (∀ e : ε, fn 4 = Except.error e →
      (∀ j, 1 ≤ j → j < 4 → ∃ e2, fn j = Except.error e2) →
      (with_retries fn).1 = some (Except.error e) ∧ (with_retries fn).2.1 = [1, 2, 3, 4]) := by
  rcases h1 : fn 1 with e1 | a1
  · rcases h2 : fn 2 with e2 | a2
    · rcases h3 : fn 3 with e3 | a3
      · rcases h4 : fn 4 with e4 | a4
        · -- all four attempts fail
          refine ⟨?_, ?_, ?_, ?_⟩
          · simp [with_retries, retryGo, h1, h2, h3, h4]
          · simp [with_retries, retryGo, h1, h2, h3, h4]
          · intro k a hk1 hk4 hfk hfail
            interval_cases k <;> simp_all
          · intro e he hfail
            injection he with he4
            subst he4
            simp [with_retries, retryGo, h1, h2, h3, h4]
        · -- success on attempt 4
          refine ⟨?_, ?_, ?_, ?_⟩
          · simp [with_retries, retryGo, h1, h2, h3, h4]
          · simp [with_retries, retryGo, h1, h2, h3, h4]
          · intro k a hk1 hk4 hfk hfail
            interval_cases k <;> simp_all [with_retries, retryGo, List.range']
          · intro e he hfail
            cases he
      · -- success on attempt 3
        refine ⟨?_, ?_, ?_, ?_⟩
        · simp [with_retries, retryGo, h1, h2, h3]
        · simp [with_retries, retryGo, h1, h2, h3]
        · intro k a hk1 hk4 hfk hfail
          interval_cases k
          · simp_all
          · simp_all
          · simp_all [with_retries, retryGo, List.range']
          · obtain ⟨e, he⟩ := hfail 3 (by norm_num) (by norm_num)
            rw [h3] at he
            cases he
        · intro e he hfail
          obtain ⟨e2, he2⟩ := hfail 3 (by norm_num) (by norm_num)
          rw [h3] at he2
          cases he2
    · -- success on attempt 2
      refine ⟨?_, ?_, ?_, ?_⟩
      · simp [with_retries, retryGo, h1, h2]
      · simp [with_retries, retryGo, h1, h2]
      · intro k a hk1 hk4 hfk hfail
        interval_cases k
        · simp_all
        · simp_all [with_retries, retryGo, List.range']
        · obtain ⟨e, he⟩ := hfail 2 (by norm_num) (by norm_num)
          rw [h2] at he
          cases he
        · obtain ⟨e, he⟩ := hfail 2 (by norm_num) (by norm_num)
          rw [h2] at he
          cases he
      · intro e he hfail
        obtain ⟨e2, he2⟩ := hfail 2 (by norm_num) (by norm_num)
        rw [h2] at he2
        cases he2
  · -- success on attempt 1
    refine ⟨?_, ?_, ?_, ?_⟩
    · simp [with_retries, retryGo, h1]
    · simp [with_retries, retryGo, h1]
    · intro k a hk1 hk4 hfk hfail
      interval_cases k
      · simp_all [with_retries, retryGo, List.range']
      all_goals
        obtain ⟨e, he⟩ := hfail 1 (by norm_num) (by norm_num)
        rw [h1] at he
        cases he
    · intro e he hfail
      obtain ⟨e2, he2⟩ := hfail 1 (by norm_num) (by norm_num)
      rw [h1] at he2
      cases he2

/-! ## Claim theorems -/

theorem finalizeField_none_iff (content : List Char) :
    finalizeField content = none ↔ pyUpper (pyStrip content) = ['N', 'U', 'L', 'L'] := by
  by_cases hc : pyUpper (pyStrip content) = ['N', 'U', 'L', 'L'] <;> simp [finalizeField, hc]

/-- C1 counterexample: the quoted literal `'NULL'` does NOT parse to the
string Field `"NULL"`; it parses to the null Field, because the source
decides the null sentinel by the token's text after stripping, not by
whether the token was quoted. -/
theorem c1_quoted_null_cex :
    parse_values_tuples (String.mk ['(', '\'', 'N', 'U', 'L', 'L', '\'', ')']) = [[none]] ∧
    parse_values_tuples (String.mk ['(', '\'', 'N', 'U', 'L', 'L', '\'', ')'])
      ≠ [[some "NULL"]] := by
  decide

/-- C1 (amended): for every top-level token, quoted or not, the null
sentinel is decided by the token's text alone: the field is null exactly
when the trimmed token uppercases to `NULL`.  In particular unquoted
`NULL` and the quoted literal `'NULL'` are conflated: both parse to the
null Field. -/
theorem c1_null_sentinel_by_text (content : List Char)
    (h : ∀ c ∈ content, c ≠ '\'' ∧ c ≠ ',' ∧ c ≠ ')') :
    (parse_values_tuplesL ('(' :: (content ++ [')'])) = [[none]]
      ↔ pyUpper (pyStrip content) = ['N', 'U', 'L', 'L']) ∧
    (parse_values_tuplesL ('(' :: '\'' :: (content ++ ['\'', ')'])) = [[none]]
      ↔ pyUpper (pyStrip content) = ['N', 'U', 'L', 'L']) := by
  have hq : ∀ c ∈ content, c ≠ '\'' := fun c hc => (h c hc).1
  constructor
  · rw [parse_unquoted_single content h]
    simpa using finalizeField_none_iff content
  · rw [parse_quoted_single content hq]
    simpa using finalizeField_none_iff content

/-- Witness for C1's amended theorem at the content `NULL`. -/
theorem c1_null_sentinel_witness :
    (∀ c ∈ (['N', 'U', 'L', 'L'] : List Char), c ≠ '\'' ∧ c ≠ ',' ∧ c ≠ ')') ∧
    (parse_values_tuplesL ('(' :: ((['N', 'U', 'L', 'L'] : List Char) ++ [')'])) = [[none]]
      ↔ pyUpper (pyStrip ['N', 'U', 'L', 'L']) = ['N', 'U', 'L', 'L']) :=
  ⟨by decide, (c1_null_sentinel_by_text ['N', 'U', 'L', 'L'] (by decide)).1⟩

/-- C2 counterexample: end of input inside a string/tuple is NOT
reported as a structural error; the partially accumulated tuple (here
holding the field `a`) is silently dropped and the plain list `[]` is
returned, while the terminated variant keeps the tuple. -/
theorem c2_unterminated_drop_cex :
    parse_values_tuples (String.mk ['(', '\'', 'a', '\'']) = [] ∧
    parse_values_tuples (String.mk ['(', '\'', 'a', '\'', ')']) = [[some "a"]] := by
  decide

/-- C2 (amended): reaching end of input while inside a tuple or string
is silent: the parser returns exactly the tuples completed so far and
discards the pending tuple — appending an unmatched `(` (which puts the
scanner inside an unfinished tuple at end of input) to any input leaves
the result unchanged.  End of input outside any tuple is likewise plain
success. -/
theorem c2_eof_silent (s : String) :
    parse_values_tuples (s ++ String.mk ['(']) = parse_values_tuples s := by
  unfold parse_values_tuples parse_values_tuplesL
  have hdata : (s ++ String.mk ['(']).data = s.data ++ ['('] := by
    rw [String.data_append]
  rw [hdata, parseLoop_append_open s.data.length s.data le_rfl]

/-- C3 counterexample: the escape/parse round trip is not the identity
for every string: for `" x"` (leading space) the re-parsed field is the
trimmed `"x"`. -/
theorem c3_roundtrip_cex :
    parse_values_tuples
        (String.mk ('(' :: '\'' :: ((sql_escape (String.mk [' ', 'x'])).data ++ ['\'', ')'])))
      = [[some "x"]] ∧ ("x" : String) ≠ String.mk [' ', 'x'] := by
  decide

/-- C3 (amended): `'O''Brien'` parses to `O'Brien` and re-escaping
reproduces `O''Brien` exactly; in general, wrapping `sql_escape(s)` in
quotes and parsing yields `s` back for every `s` that carries no
leading/trailing whitespace and whose uppercase text is not `NULL` (the
two cases the parser's unconditional trim and text-based null sentinel
alter). -/
theorem c3_escape_roundtrip (s : List Char) (h1 : pyStrip s = s)
    (h2 : pyUpper s ≠ ['N', 'U', 'L', 'L']) :
    parse_values_tuplesL ('(' :: '\'' :: (sqlEscapeL s ++ ['\'', ')'])) = [[some s]] ∧
    sqlEscapeL ['O', '\'', 'B', 'r', 'i', 'e', 'n'] = ['O', '\'', '\'', 'B', 'r', 'i', 'e', 'n'] ∧
    parse_values_tuplesL ['(', '\'', 'O', '\'', '\'', 'B', 'r', 'i', 'e', 'n', '\'', ')']
      = [[some ['O', '\'', 'B', 'r', 'i', 'e', 'n']]] := by
  refine ⟨?_, by decide, by decide⟩
  rw [parse_escaped_single s]
  unfold finalizeField
  rw [h1, if_neg h2]

/-- Witness for C3's amended theorem at the content `ab`. -/
theorem c3_escape_roundtrip_witness :
    pyStrip ['a', 'b'] = ['a', 'b'] ∧
    parse_values_tuplesL ('(' :: '\'' :: (sqlEscapeL ['a', 'b'] ++ ['\'', ')']))
      = [[some ['a', 'b']]] :=
  ⟨by decide, (c3_escape_roundtrip ['a', 'b'] (by decide) (by decide)).1⟩

/-- C4: inside a quoted literal, commas, parentheses and whitespace are
appended verbatim to the token and never split the field nor close the
tuple: any quote-free content between quotes yields exactly one tuple
holding exactly one field, and `'Steps: 1, 2 (done)'` parses to that
single field. -/
theorem c4_quoted_no_split (content : List Char) (h : ∀ c ∈ content, c ≠ '\'') :
    parse_values_tuplesL ('(' :: '\'' :: (content ++ ['\'', ')'])) = [[finalizeField content]] ∧
    parse_values_tuples (String.mk ('(' :: '\'' :: ("Steps: 1, 2 (done)".data ++ ['\'', ')'])))
      = [[some "Steps: 1, 2 (done)"]] :=
  ⟨parse_quoted_single content h, by decide⟩

/-- Witness for C4 at the content `Steps: 1, 2 (done)`. -/
theorem c4_quoted_no_split_witness :
    parse_values_tuplesL ('(' :: '\'' :: ("Steps: 1, 2 (done)".data ++ ['\'', ')']))
      = [[finalizeField "Steps: 1, 2 (done)".data]] :=
  (c4_quoted_no_split "Steps: 1, 2 (done)".data (by decide)).1

/-- Witness for C5: `fnW` fails twice and succeeds on attempt 3; the
call sequence is `[1, 2, 3]` (at most 4 calls) with sleeps `[2, 4]`. -/
theorem c5_with_retries_witness :
    with_retries fnW = (some (Except.ok 42), [1, 2, 3], ([2, 4] : List ℚ)) ∧
    ([1, 2, 3] : List Nat).length ≤ 4 := by
  have hrun : with_retries fnW = (some (Except.ok 42), [1, 2, 3], ([2, 4] : List ℚ)) := by
    simp [with_retries, retryGo, fnW]
    norm_num
  refine ⟨hrun, ?_⟩
  have hlen := (with_retries_policy fnW).1
  rw [hrun] at hlen
  exact hlen

/-- C6 counterexample: an input with zero `VALUES` occurrences yields an
empty sequence of spans, and the caller treats this as a FATAL error
(`raise ValueError(...)`), not as a non-fatal empty success. -/
theorem c6_no_values_error_cex :
    extract_values_sections "SELECT 1;" = [] ∧
    mainRowsOutcome "SELECT 1;"
      = Except.error "No se detectaron tuplas VALUES en el archivo SQL." :=
  ⟨by decide, by rfl⟩

/-- C6 (amended): an input with zero `VALUES` occurrences yields an
empty sequence of spans from `extract_values_sections`, and the caller
then raises `ValueError` — zero parsed row-tuples is a fatal error in
`main`, not an empty-success outcome. -/
theorem c6_no_values_raises (sql : String)
    (h : ∀ i < sql.data.length, valuesAt sql.data i = false) :
    extract_values_sections sql = [] ∧
    mainRowsOutcome sql = Except.error "No se detectaron tuplas VALUES en el archivo SQL." := by
  have hfilter : (List.range sql.data.length).filter (valuesAt sql.data) = [] := by
    rw [List.filter_eq_nil_iff]
    intro i hi
    rw [h i (List.mem_range.mp hi)]
    decide
  have hempty : extract_values_sections sql = [] := by
    unfold extract_values_sections
    rw [hfilter]
    rfl
  refine ⟨hempty, ?_⟩
  unfold mainRowsOutcome mainRows
  rw [hempty]
  rfl

/-- Witness for C6's amended theorem at the input `SELECT x`. -/
theorem c6_no_values_raises_witness :
    (∀ i < ("SELECT x" : String).data.length, valuesAt ("SELECT x" : String).data i = false) ∧
    extract_values_sections "SELECT x" = [] :=
  ⟨by decide, (c6_no_values_raises "SELECT x" (by decide)).1⟩

/-- C7: the projection rejects a row exactly when it is too short to
hold index 11, the id field at index 11 is not integer-parseable, or the
label at index 1 normalises to nothing; and the description falls back
to the label exactly when the description at index 5 normalises to
nothing. -/
theorem c7_projection (row : List (Option String)) :
    (projectRow row = none ↔
      row.length ≤ 11 ∨ as_int (row.getD 11 none) = none
        ∨ ChecklistItems.normalize (row.getD 1 none) = none) ∧
    (∀ rec, projectRow row = some rec →
      (ChecklistItems.normalize (row.getD 5 none) = none → rec.description = rec.label) ∧
      (∀ d, ChecklistItems.normalize (row.getD 5 none) = some d → rec.description = d)) := by
  unfold projectRow
  by_cases hlen : row.length ≤ 11
  · simp [hlen]
  · rcases hid : as_int (row.getD 11 none) with _ | cid
    · simp [hlen, hid]
    · rcases hlab : ChecklistItems.normalize (row.getD 1 none) with _ | lab
      · simp [hlen, hid, hlab]
      · refine ⟨by simp [hlen, hid, hlab], ?_⟩
        intro rec hrec
        simp only [hlen, hid, hlab, if_neg hlen] at hrec
        rcases hdesc : ChecklistItems.normalize (row.getD 5 none) with _ | d <;>
          rw [hdesc] at hrec <;> cases hrec <;> simp [hdesc]

/-- Witness for C7 at `row0`: the row projects to `rec0`, whose
description fell back to the label. -/
theorem c7_projection_witness :
    projectRow row0 = some rec0 ∧ rec0.description = rec0.label := by
  refine ⟨by decide, ?_⟩
  exact ((c7_projection row0).2 rec0 (by decide)).1 (by decide)

/-- C8: the batching loop partitions the texts into consecutive batches
of at most `BATCH_SIZE = 50` whose concatenation in dispatch order is
exactly the original sequence, and a response whose item count differs
from the submitted batch's length raises instead of being zipped. -/
theorem c8_batching (texts : List String) (resp : DeepLResponse) :
    (dispatchBatches texts).flatten = texts ∧
    (∀ b ∈ dispatchBatches texts, b.length ≤ 50) ∧
    (resp.ok = true → resp.translations.length ≠ texts.length →
      translate_batch texts resp = Except.error "Mismatch entre textos enviados y traducidos") := by
  refine ⟨?_, ?_, ?_⟩
  · unfold dispatchBatches
    rw [batchesFrom_flatten texts texts.length 0 (by omega)]
    exact List.drop_zero texts
  · exact batchesFrom_sizes texts texts.length 0 (by omega)
  · intro hok hmis
    unfold translate_batch
    rw [hok]
    simp [hmis]

/-- Witness for C8 at two texts and a one-item response. -/
theorem c8_batching_witness :
    (dispatchBatches ["a", "b"]).flatten = ["a", "b"] ∧
    translate_batch ["a", "b"] { ok := true, translations := ["x"] }
      = Except.error "Mismatch entre textos enviados y traducidos" :=
  ⟨(c8_batching ["a", "b"] { ok := true, translations := ["x"] }).1,
   (c8_batching ["a", "b"] { ok := true, translations := ["x"] }).2.2 rfl (by decide)⟩

/-- C9: the scanner is total and runs in at most one iteration per input
character: with any fuel bound of at least the input length, the
fuel-bounded scanner finishes (never answers `none`) and computes
exactly `parse_values_tuplesL`; in particular `parse_values_tuples`
terminates on every input, well-formed or not. -/
theorem c9_parser_total (fuel : Nat) (cs : List Char) (h : cs.length ≤ fuel) :
    parseLoopF fuel cs false false [] [] [] = some (parse_values_tuplesL cs) := by
  rw [parseLoopF_complete fuel cs h]
  rfl

/-- Witness for C9 on an unbalanced input with an escaped quote at the
end. -/
theorem c9_parser_total_witness :
    parseLoopF 7 ['(', '\'', 'a', '\'', '\''] false false [] [] []
      = some (parse_values_tuplesL ['(', '\'', 'a', '\'', '\'']) :=
  c9_parser_total 7 ['(', '\'', 'a', '\'', '\''] (by decide)

/-- C10: field finalisation trims unconditionally, so leading/trailing
whitespace inside the quotes of a quoted literal is stripped from the
field (only internal whitespace survives): `'  padded  '` parses to the
field `padded`. -/
theorem c10_trim_inside_quotes (content : List Char) (h : ∀ c ∈ content, c ≠ '\'') :
    parse_values_tuplesL ('(' :: '\'' :: (content ++ ['\'', ')']))
      = [[if pyUpper (pyStrip content) = ['N', 'U', 'L', 'L'] then none
          else some (pyStrip content)]] ∧
    parse_values_tuples
        (String.mk ['(', '\'', ' ', ' ', 'p', 'a', 'd', 'd', 'e', 'd', ' ', ' ', '\'', ')'])
      = [[some "padded"]] := by
  refine ⟨?_, by decide⟩
  rw [parse_quoted_single content h]
  rfl

/-- Witness for C10 at the content `  padded  `. -/
theorem c10_trim_inside_quotes_witness :
    parse_values_tuplesL
        ('(' :: '\'' :: (([' ', ' ', 'p', 'a', 'd', 'd', 'e', 'd', ' ', ' '] : List Char)
          ++ ['\'', ')']))
      = [[if pyUpper (pyStrip [' ', ' ', 'p', 'a', 'd', 'd', 'e', 'd', ' ', ' '])
            = ['N', 'U', 'L', 'L'] then none
          else some (pyStrip [' ', ' ', 'p', 'a', 'd', 'd', 'e', 'd', ' ', ' '])]] :=
  (c10_trim_inside_quotes [' ', ' ', 'p', 'a', 'd', 'd', 'e', 'd', ' ', ' '] (by decide)).1
